import Mathlib

/-!
Formal model of the clipboard-bridge relay server (src/server.py).

The server keeps a process-wide dictionary `rooms` mapping a room code to
`{"clients": set, "last_content": str, "created_at": float}` and exposes:
  * `cleanup_old_rooms`  - expiry sweep removing rooms older than 86400 s;
  * `sync_clipboard`     - HTTP content push: set `last_content`, broadcast
    with no exclusion, return `{"status": "synced", "devices": len(clients)}`;
  * `websocket_endpoint` - join (with replay of non-empty `last_content`),
    the inbound message loop, and removal on disconnect;
  * `broadcast_to_room`  - fan-out of `{"type": "sync", "content": c}` to all
    clients other than `exclude`, with pruning of clients whose send raised.

The embedding is sequential state passing: every operation takes the current
registry and returns the new registry together with the list of messages it
sent (pairs of recipient handle and JSON payload) and its outcome.  Whether a
`send_json` call raises is modelled by an environment `alive : WS → Bool`:
sending to `w` succeeds exactly when `alive w = true`.  Python exceptions that
the source does not catch are modelled with `Except.error`.
-/

namespace ClipboardBridge

/-- JSON values exchanged over the live channel (objects, arrays, strings,
integers, booleans, null) - the shapes `receive_json` can produce. -/
inductive Json where
  | obj (fields : List (String × Json))
  | arr (elems : List Json)
  | str (s : String)
  | num (n : Int)
  | bool (b : Bool)
  | null

/-- Connection handles (WebSocket objects) are opaque; model them as naturals. -/
abbrev WS := Nat

/-- `rooms[code] = {"clients": set(), "last_content": "", "created_at": time.time()}`.
The client set is a duplicate-free list of handles; the creation timestamp is
an integer number of seconds (the claims only compare differences of times). -/
structure Room where
  clients : List WS
  last_content : Json
  created_at : Int

/-- The module-level `rooms` dictionary: an association list with at most one
entry per room code (the first matching entry is authoritative). -/
abbrev Registry := List (String × Room)

/-- Dictionary lookup `rooms.get(code)` / `code in rooms`. -/
def lookupRoom : Registry → String → Option Room
  | [], _ => none
  | (c, r) :: rest, code => if c = code then some r else lookupRoom rest code

/-- Dictionary item assignment `rooms[code] = r` (replace the entry if the key
is present, append it otherwise). -/
def setRoom : Registry → String → Room → Registry
  | [], code, r => [(code, r)]
  | (c, r0) :: rest, code, r =>
      if c = code then (code, r) :: rest else (c, r0) :: setRoom rest code r

/-- Python `dict.get(key)` on a parsed JSON object. -/
def dictGet (fields : List (String × Json)) (key : String) : Option Json :=
  (fields.find? (fun p => p.1 = key)).map (fun p => p.2)

/-- Python truthiness of a JSON value, as used by
`if rooms[room_code]["last_content"]:` (empty string, empty containers, zero,
`False` and `None` are falsy). -/
def Json.truthy : Json → Bool
  | .obj fields => !fields.isEmpty
  | .arr elems => !elems.isEmpty
  | .str s => !s.isEmpty
  | .num n => n != 0
  | .bool b => b
  | .null => false

/-- The one outbound message shape: `{"type": "sync", "content": content}`. -/
def syncMsg (content : Json) : Json :=
  .obj [("type", .str "sync"), ("content", content)]

/-- Python `set.add`: insert the handle if it is not already a member. -/
def setAdd (l : List WS) (c : WS) : List WS :=
  if c ∈ l then l else l ++ [c]

/-- `cleanup_old_rooms()`: delete every room with
`current_time - data["created_at"] > 86400`.  The current time is passed in
explicitly (the source reads `time.time()`). -/
def cleanup_old_rooms (now : Int) (reg : Registry) : Registry :=
  reg.filter (fun p => decide (¬ (now - p.2.created_at > 86400)))

/-- Result of one `broadcast_to_room` call.  `reg` is the registry after the
pruning pass; `attempted` lists the clients on which `send_json` was called, in
iteration order; `sent` lists the successful deliveries (recipient, payload);
`dead` lists the clients whose send raised and that were pruned.  `ret` is the
value the Python function returns to its caller: the body has no `return`
statement carrying a value, so both paths yield `None`; we type the slot with
the (delivered, pruned) counts the specification claims, to compare. -/
structure BroadcastResult where
  reg : Registry
  attempted : List WS
  sent : List (WS × Json)
  dead : List WS
  ret : Option (Nat × Nat)

/-- `broadcast_to_room(room_code, content, exclude=None)`: if the room is gone,
return immediately; otherwise call `send_json({"type": "sync", "content":
content})` on every client different from `exclude`, collect the clients whose
send raised into `dead_clients`, and after the loop `discard` each of them
from the room's client set.  Exceptions from individual sends are swallowed
(the function is total); nothing is returned. -/
def broadcast_to_room (alive : WS → Bool) (reg : Registry) (room_code : String)
    (content : Json) (exclude : Option WS) : BroadcastResult :=
  match lookupRoom reg room_code with
  | none => ⟨reg, [], [], [], none⟩
  | some room =>
      let targets := room.clients.filter (fun c => decide (exclude ≠ some c))
      let delivered := targets.filter (fun c => alive c)
      let dead_clients := targets.filter (fun c => !alive c)
      let newClients := room.clients.filter (fun c => decide (c ∉ dead_clients))
      ⟨setRoom reg room_code { room with clients := newClients },
       targets,
       delivered.map (fun c => (c, syncMsg content)),
       dead_clients,
       none⟩

/-- The HTTP response of `POST /sync`: `{"status": "synced", "devices": n}`. -/
structure SyncResponse where
  status : String
  devices : Nat

/-- `sync_clipboard(data)` (`POST /sync`): raise a 404 `HTTPException` if the
room code is absent; otherwise set `room["last_content"] = content`, call
`broadcast_to_room(room_code, content)` with no exclusion, and return
`{"status": "synced", "devices": len(room["clients"])}` - `room` aliases the
dictionary the broadcast just pruned, so the count is read after pruning.
The result is (registry after, messages sent, HTTP outcome); the error case
carries the status code 404. -/
def sync_clipboard (alive : WS → Bool) (reg : Registry) (room_code : String)
    (content : String) : Registry × List (WS × Json) × Except Nat SyncResponse :=
  match lookupRoom reg room_code with
  | none => (reg, [], .error 404)
  | some room =>
      let reg1 := setRoom reg room_code { room with last_content := .str content }
      let br := broadcast_to_room alive reg1 room_code (.str content) none
      let devices := match lookupRoom br.reg room_code with
                     | some r => r.clients.length
                     | none => 0
      (br.reg, br.sent, .ok ⟨"synced", devices⟩)

/-- Uncaught Python exceptions that terminate the websocket handler. -/
inductive PyExn where
  | keyError
  | attributeError
deriving DecidableEq

/-- The join prefix of `websocket_endpoint`: if the room code is absent, close
with code 1008 and leave the registry alone; otherwise `accept` the socket,
`add` it to `rooms[room_code]["clients"]`, and - if `last_content` is truthy -
send the new client exactly one `{"type": "sync", "content": last_content}`
message.  The middle component is the ordered list of messages delivered to
the joining client during the join, before any live traffic. -/
def ws_join (reg : Registry) (room_code : String) (c : WS) :
    Registry × List Json × Except Nat Unit :=
  match lookupRoom reg room_code with
  | none => (reg, [], .error 1008)
  | some room =>
      let reg1 := setRoom reg room_code { room with clients := setAdd room.clients c }
      let msgs := if room.last_content.truthy then [syncMsg room.last_content] else []
      (reg1, msgs, .ok ())

/-- `data.get("type") == "clipboard"` on a parsed JSON object: true exactly
when the "type" key maps to the string "clipboard". -/
def isClipboard (fields : List (String × Json)) : Bool :=
  match dictGet fields "type" with
  | some (.str s) => s = "clipboard"
  | _ => false

/-- One iteration of the `while True` receive loop of `websocket_endpoint`,
applied to the parsed inbound value `data`.  The source runs
`data.get("type")`, so a value that is not a JSON object raises an uncaught
`AttributeError` (terminating the handler); an object whose "type" is not
"clipboard" falls through silently; a clipboard object reads
`data.get("content", "")`, writes it into `rooms[room_code]["last_content"]`
(a `KeyError` if the room has meanwhile been expired) and broadcasts it
excluding the sender `c`. -/
def ws_handle_message (alive : WS → Bool) (reg : Registry) (room_code : String)
    (c : WS) (data : Json) : Registry × List (WS × Json) × Except PyExn Unit :=
  match data with
  | .obj fields =>
      if isClipboard fields then
        let content := (dictGet fields "content").getD (.str "")
        match lookupRoom reg room_code with
        | none => (reg, [], .error .keyError)
        | some room =>
            let reg1 := setRoom reg room_code { room with last_content := content }
            let br := broadcast_to_room alive reg1 room_code content (some c)
            (br.reg, br.sent, .ok ())
      else (reg, [], .ok ())
  | _ => (reg, [], .error .attributeError)

/-- The `except WebSocketDisconnect:` handler of `websocket_endpoint`:
`rooms[room_code]["clients"].remove(websocket)`.  `rooms[room_code]` raises
`KeyError` if the room has been expired, and `set.remove` raises `KeyError`
if the handle is no longer in the set (e.g. it was pruned by a broadcast). -/
def ws_on_disconnect (reg : Registry) (room_code : String) (c : WS) :
    Registry × Except PyExn Unit :=
  match lookupRoom reg room_code with
  | none => (reg, .error .keyError)
  | some room =>
      if c ∈ room.clients then
        (setRoom reg room_code
           { room with clients := room.clients.filter (fun x => decide (x ≠ c)) },
         .ok ())
      else (reg, .error .keyError)

/-! ## Dictionary lemmas -/

theorem lookupRoom_setRoom_same (reg : Registry) (code : String) (r : Room) :
    lookupRoom (setRoom reg code r) code = some r := by
  induction reg with
  | nil => simp [setRoom, lookupRoom]
  | cons p rest ih =>
      obtain ⟨c, r0⟩ := p
      by_cases hc : c = code
      · simp [setRoom, lookupRoom, hc]
      · simp [setRoom, lookupRoom, hc, ih]

theorem setRoom_setRoom (reg : Registry) (code : String) (r1 r2 : Room) :
    setRoom (setRoom reg code r1) code r2 = setRoom reg code r2 := by
  induction reg with
  | nil => simp [setRoom]
  | cons p rest ih =>
      obtain ⟨c, r0⟩ := p
      by_cases hc : c = code
      · simp [setRoom, hc]
      · simp [setRoom, hc, ih]

/-! ## Broadcast fan-out lemmas -/

/-- Unfolding of `broadcast_to_room` on an existing room. -/
theorem broadcast_to_room_found (alive : WS → Bool) (reg : Registry) (room_code : String)
    (content : Json) (exclude : Option WS) (room : Room)
    (h : lookupRoom reg room_code = some room) :
    broadcast_to_room alive reg room_code content exclude =
      ⟨setRoom reg room_code
         { room with clients := room.clients.filter (fun c => decide (c ∉
             (room.clients.filter (fun c => decide (exclude ≠ some c))).filter
               (fun c => !alive c))) },
       room.clients.filter (fun c => decide (exclude ≠ some c)),
       ((room.clients.filter (fun c => decide (exclude ≠ some c))).filter
          (fun c => alive c)).map (fun c => (c, syncMsg content)),
       (room.clients.filter (fun c => decide (exclude ≠ some c))).filter
         (fun c => !alive c),
       none⟩ := by
  simp [broadcast_to_room, h]

/-- With no exclusion, `send_json` is attempted on every client. -/
theorem filter_exclude_none (l : List WS) :
    l.filter (fun c => decide ((none : Option WS) ≠ some c)) = l := by
  apply List.filter_eq_self.mpr
  intro a _
  simp

/-- Excluding `c` keeps exactly the clients different from `c`. -/
theorem filter_exclude_some (c : WS) (l : List WS) :
    l.filter (fun w => decide ((some c : Option WS) ≠ some w))
      = l.filter (fun w => decide (w ≠ c)) := by
  apply List.filter_congr
  intro w _
  rw [decide_eq_decide]
  constructor
  · intro hne heq
    exact hne (by rw [heq])
  · intro hne heq
    injection heq with h2
    exact hne h2.symm

/-- Discarding the dead clients from the client set is filtering by liveness. -/
theorem prune_filter_alive (alive : WS → Bool) (l : List WS) :
    l.filter (fun c => decide (c ∉ l.filter (fun c => !alive c))) = l.filter alive := by
  apply List.filter_congr
  intro x hx
  by_cases hax : alive x = true
  · simp [List.mem_filter, hax]
  · simp [List.mem_filter, hax, hx]


/-- Broadcast with no exclusion: every client is attempted, the live ones are
delivered to, and the client set is pruned down to the live clients. -/
theorem broadcast_none_exclude (alive : WS → Bool) (reg : Registry)
    (room_code : String) (content : Json) (room : Room)
    (h : lookupRoom reg room_code = some room) :
    broadcast_to_room alive reg room_code content none =
      ⟨setRoom reg room_code { room with clients := room.clients.filter alive },
       room.clients,
       (room.clients.filter alive).map (fun w => (w, syncMsg content)),
       room.clients.filter (fun w => !alive w),
       none⟩ := by
  have hbr := broadcast_to_room_found alive reg room_code content none room h
  rw [hbr, filter_exclude_none, prune_filter_alive]

/-- Broadcast excluding `c` when every client is live: exactly the clients
other than `c` are delivered to, nothing is pruned, the room is unchanged. -/
theorem broadcast_all_alive_excluding (alive : WS → Bool) (reg : Registry)
    (room_code : String) (content : Json) (c : WS) (room : Room)
    (h : lookupRoom reg room_code = some room)
    (hal : ∀ w ∈ room.clients, alive w = true) :
    broadcast_to_room alive reg room_code content (some c) =
      ⟨setRoom reg room_code room,
       room.clients.filter (fun w => decide (w ≠ c)),
       (room.clients.filter (fun w => decide (w ≠ c))).map
         (fun w => (w, syncMsg content)),
       [], none⟩ := by
  have hbr := broadcast_to_room_found alive reg room_code content (some c) room h
  rw [hbr, filter_exclude_some]
  have hdead : (room.clients.filter (fun w => decide (w ≠ c))).filter
      (fun w => !alive w) = [] := by
    rw [List.filter_eq_nil_iff]
    intro w hw
    simp [hal w (List.mem_of_mem_filter hw)]
  have hdel : (room.clients.filter (fun w => decide (w ≠ c))).filter
      (fun w => alive w) = room.clients.filter (fun w => decide (w ≠ c)) :=
    List.filter_eq_self.mpr (fun w hw => hal w (List.mem_of_mem_filter hw))
  rw [hdead, hdel]
  have hnew : room.clients.filter (fun w => decide (w ∉ ([] : List WS)))
      = room.clients :=
    List.filter_eq_self.mpr (fun w _ => by simp)
  rw [hnew]

/-! ## Claim theorems -/

/-- C9: for every registry state and every current time, the expiry sweep
removes exactly the rooms whose age `now - created_at` strictly exceeds the
24-hour TTL (86400 s) and keeps every other room entirely untouched (same
clients, same last content, same creation time), regardless of its membership
count, including zero members. -/
theorem cleanup_old_rooms_removes_exactly_expired (now : Int) (reg : Registry)
    (code : String) (r : Room) :
    (code, r) ∈ cleanup_old_rooms now reg ↔
      ((code, r) ∈ reg ∧ now - r.created_at ≤ 86400) := by
  simp [cleanup_old_rooms, List.mem_filter, not_lt]

/-- C5: pushing content to a room code that is not in the registry yields the
404 room-not-found error, sends no message, and leaves the registry - hence
the members, last content and creation time of every existing room -
unchanged. -/
theorem sync_clipboard_notfound (alive : WS → Bool) (reg : Registry)
    (room_code content : String) (h : lookupRoom reg room_code = none) :
    sync_clipboard alive reg room_code content = (reg, [], .error 404) ∧
    ∀ code2, lookupRoom (sync_clipboard alive reg room_code content).1 code2
        = lookupRoom reg code2 := by
  have heq : sync_clipboard alive reg room_code content = (reg, [], .error 404) := by
    simp [sync_clipboard, h]
  exact ⟨heq, fun code2 => by rw [heq]⟩

/-- C5 witness: pushing to the absent code "B" in a registry holding only room
"A" errors with 404 and changes nothing. -/
theorem sync_clipboard_notfound_witness :
    sync_clipboard (fun _ => true) [("A", ⟨[1], Json.str "", 0⟩)] "B" "x"
      = ([("A", ⟨[1], Json.str "", 0⟩)], [], .error 404) :=
  (sync_clipboard_notfound (fun _ => true) [("A", ⟨[1], Json.str "", 0⟩)] "B" "x" rfl).1

/-- C3: joining an existing room delivers to the new connection, during the
join, exactly the replay messages: one `{type: "sync", content: lastContent}`
message when `lastContent` is non-empty (truthy), and nothing at all when it
is empty - so the replay, when present, is the first message the connection
sees, with nothing delivered before it.  The connection is registered into
the room's client set. -/
theorem ws_join_replay (reg : Registry) (room_code : String) (c : WS) (room : Room)
    (h : lookupRoom reg room_code = some room) :
    (room.last_content.truthy = true →
        (ws_join reg room_code c).2.1 = [syncMsg room.last_content]) ∧
    (room.last_content.truthy = false → (ws_join reg room_code c).2.1 = []) ∧
    (ws_join reg room_code c).2.2 = .ok () ∧
    (ws_join reg room_code c).1
      = setRoom reg room_code { room with clients := setAdd room.clients c } := by
  refine ⟨fun ht => ?_, fun hf => ?_, ?_, ?_⟩ <;> simp [ws_join, h]
  · simp [ht]
  · simp [hf]

/-- C3 witness: joining room "R" (last content "hi") as connection 7 delivers
exactly the one replay message. -/
theorem ws_join_replay_witness :
    (ws_join [("R", ⟨[], Json.str "hi", 0⟩)] "R" 7).2.1 = [syncMsg (Json.str "hi")] :=
  (ws_join_replay [("R", ⟨[], Json.str "hi", 0⟩)] "R" 7 ⟨[], Json.str "hi", 0⟩ rfl).1 rfl

/-- C8 counterexample: `broadcast_to_room` does not return delivered/pruned
counts - on a concrete call (room "R", one live client) its Python return
value is `None`, not a pair of counts. -/
theorem broadcast_ret_no_counts_ce :
    ¬ ∃ d p : Nat,
      (broadcast_to_room (fun _ => true) [("R", ⟨[1], Json.str "", 0⟩)] "R"
          (Json.str "x") none).ret = some (d, p) := by
  intro hex
  obtain ⟨d, p, hdp⟩ := hex
  exact Option.noConfusion ((rfl :
    (broadcast_to_room (fun _ => true) [("R", ⟨[1], Json.str "", 0⟩)] "R"
        (Json.str "x") none).ret = none) ▸ hdp)

/-- C8 amended: the broadcast operation returns no counts to its caller - its
return value is `None` on every invocation (the delivered and pruned
quantities are reflected only in the messages actually sent and the clients
actually removed). -/
theorem broadcast_ret_always_none (alive : WS → Bool) (reg : Registry)
    (room_code : String) (content : Json) (exclude : Option WS) :
    (broadcast_to_room alive reg room_code content exclude).ret = none := by
  cases h : lookupRoom reg room_code with
  | none => simp [broadcast_to_room, h]
  | some room => simp [broadcast_to_room, h]

/-- C6: the disconnect path is not an idempotent no-op.  On a concrete state
it raises `KeyError` both when the connection is no longer in the room's
client set (it was pruned after a failed delivery) and when the room has
already been expired - `set.remove` and `rooms[room_code]` raise instead of
silently doing nothing. -/
theorem ws_on_disconnect_raises_keyerror :
    ws_on_disconnect [("R", ⟨[2], Json.str "", 0⟩)] "R" 1
      = ([("R", ⟨[2], Json.str "", 0⟩)], .error .keyError) ∧
    ws_on_disconnect [] "R" 1 = ([], .error .keyError) := by
  exact ⟨rfl, rfl⟩

/-- C7 counterexample: an inbound live-channel value that is not a JSON object
(here the JSON string "ping") is not dropped silently - `data.get("type")`
raises an uncaught `AttributeError`, which terminates the handler (and with
it the connection) instead of yielding the silent no-op outcome. -/
theorem ws_handle_nonobject_ce :
    (ws_handle_message (fun _ => true) [("R", ⟨[1, 2], Json.str "", 0⟩)] "R" 1
        (Json.str "ping")).2.2 = .error .attributeError ∧
    (ws_handle_message (fun _ => true) [("R", ⟨[1, 2], Json.str "", 0⟩)] "R" 1
        (Json.str "ping")).2.2 ≠ .ok () := by
  refine ⟨rfl, fun hcontra => ?_⟩
  exact Except.noConfusion ((rfl :
      (Except.error PyExn.attributeError : Except PyExn Unit)
        = (ws_handle_message (fun _ => true) [("R", ⟨[1, 2], Json.str "", 0⟩)] "R" 1
            (Json.str "ping")).2.2).trans hcontra)

/-- C7 amended: an inbound message that is a JSON object whose "type" is not
"clipboard" is dropped silently (no error, no message sent, registry - hence
every room's state - unchanged); an inbound value that is not a JSON object
raises an uncaught `AttributeError` that terminates the connection handler. -/
theorem ws_handle_silent_drop (alive : WS → Bool) (reg : Registry)
    (room_code : String) (c : WS) :
    (∀ fields, isClipboard fields = false →
        ws_handle_message alive reg room_code c (.obj fields) = (reg, [], .ok ())) ∧
    (∀ data : Json, (∀ fields, data ≠ .obj fields) →
        ws_handle_message alive reg room_code c data
          = (reg, [], .error .attributeError)) := by
  constructor
  · intro fields hf
    simp [ws_handle_message, hf]
  · intro data hdata
    cases data with
    | obj fields => exact absurd rfl (hdata fields)
    | arr elems => rfl
    | str s => rfl
    | num n => rfl
    | bool b => rfl
    | null => rfl

/-- C7 amended witness: a `{"type": "ping"}` object is silently ignored in a
concrete state. -/
theorem ws_handle_silent_drop_witness :
    ws_handle_message (fun _ => true) [("R", ⟨[1, 2], Json.str "", 0⟩)] "R" 1
        (.obj [("type", Json.str "ping")])
      = ([("R", ⟨[1, 2], Json.str "", 0⟩)], [], .ok ()) :=
  (ws_handle_silent_drop (fun _ => true) [("R", ⟨[1, 2], Json.str "", 0⟩)] "R" 1).1
    [("type", Json.str "ping")] rfl

/-- C1: pushing content to an existing room sets the room's last content to
the pushed content, invokes the broadcast with no excluded connection (every
live client gets the sync message), and answers `{"status": "synced",
"devices": n}` where `n` is the member count measured after the broadcast has
pruned the dead connections. -/
theorem sync_clipboard_found (alive : WS → Bool) (reg : Registry)
    (room_code content : String) (room : Room)
    (h : lookupRoom reg room_code = some room) :
    sync_clipboard alive reg room_code content =
      (setRoom reg room_code
         { room with last_content := Json.str content,
                     clients := room.clients.filter alive },
       (room.clients.filter alive).map (fun w => (w, syncMsg (Json.str content))),
       .ok ⟨"synced", (room.clients.filter alive).length⟩) := by
  have h1 := lookupRoom_setRoom_same reg room_code
    { room with last_content := Json.str content }
  have hbr := broadcast_none_exclude alive
    (setRoom reg room_code { room with last_content := Json.str content })
    room_code (Json.str content) { room with last_content := Json.str content } h1
  simp only [sync_clipboard, h]
  rw [hbr]
  simp [lookupRoom_setRoom_same, setRoom_setRoom]

/-- C1 witness: pushing "hello" to room "R" with clients {1, 2, 3} of which 3
is dead updates the content, delivers to 1 and 2, and reports 2 devices. -/
theorem sync_clipboard_found_witness :
    sync_clipboard (fun w => decide (w ≠ 3)) [("R", ⟨[1, 2, 3], Json.str "old", 0⟩)]
        "R" "hello"
      = ([("R", ⟨[1, 2], Json.str "hello", 0⟩)],
         [(1, syncMsg (Json.str "hello")), (2, syncMsg (Json.str "hello"))],
         .ok ⟨"synced", 2⟩) :=
  (sync_clipboard_found (fun w => decide (w ≠ 3))
    [("R", ⟨[1, 2, 3], Json.str "old", 0⟩)] "R" "hello"
    ⟨[1, 2, 3], Json.str "old", 0⟩ rfl).trans rfl

/-- C2: broadcasting content to a room (duplicate-free client set, all clients
live) excluding `b` delivers the `{type: "sync", content}` payload exactly
once to every member other than `b`, and every delivered message goes to a
recipient different from `b` and carries exactly that payload - so `b` never
receives the broadcast. -/
theorem broadcast_excluding_delivers_once (alive : WS → Bool) (reg : Registry)
    (room_code : String) (content : Json) (b : WS) (room : Room)
    (h : lookupRoom reg room_code = some room)
    (hnd : room.clients.Nodup)
    (hal : ∀ w ∈ room.clients, alive w = true) :
    (∀ m ∈ room.clients, m ≠ b →
        ((broadcast_to_room alive reg room_code content (some b)).sent.map
            Prod.fst).count m = 1) ∧
    (∀ q ∈ (broadcast_to_room alive reg room_code content (some b)).sent,
        q.1 ≠ b ∧ q.2 = syncMsg content) := by
  have hbr := broadcast_all_alive_excluding alive reg room_code content b room h hal
  constructor
  · intro m hm hmb
    rw [hbr]
    have hfst : ((room.clients.filter (fun w => decide (w ≠ b))).map
        (fun w => (w, syncMsg content))).map Prod.fst
        = room.clients.filter (fun w => decide (w ≠ b)) := by
      simp [Function.comp_def]
    simp only [hfst]
    have hmem2 : m ∈ room.clients.filter (fun w => decide (w ≠ b)) :=
      List.mem_filter.mpr ⟨hm, by simp [hmb]⟩
    exact List.count_eq_one_of_mem (hnd.filter _) hmem2
  · intro q hq
    rw [hbr] at hq
    obtain ⟨w, hwmem, rfl⟩ := List.mem_map.mp hq
    refine ⟨?_, rfl⟩
    have := (List.mem_filter.mp hwmem).2
    exact of_decide_eq_true this

/-- C2 witness: broadcasting to room "R" with members {10, 20, 30} excluding
20 delivers exactly once to member 10. -/
theorem broadcast_excluding_delivers_once_witness :
    (((broadcast_to_room (fun _ => true) [("R", ⟨[10, 20, 30], Json.str "", 0⟩)]
        "R" (Json.str "x") (some 20)).sent.map Prod.fst).count 10) = 1 :=
  (broadcast_excluding_delivers_once (fun _ => true)
    [("R", ⟨[10, 20, 30], Json.str "", 0⟩)] "R" (Json.str "x") 20
    ⟨[10, 20, 30], Json.str "", 0⟩ rfl (by decide) (fun _ _ => rfl)).1
    10 (by decide) (by decide)

/-- C4: when delivery to member `a` fails during a broadcast (its connection
is dead and it is not the excluded one), `a` has been removed from the room's
client set by the time the call returns, the broadcast never delivered to
`a`, and any subsequent broadcast to that room - under any liveness
environment, content and exclusion - never attempts delivery to `a`.  The
failure is absorbed: `broadcast_to_room` is a total function, so no exception
reaches its caller. -/
theorem broadcast_prunes_dead (alive : WS → Bool) (reg : Registry)
    (room_code : String) (content : Json) (exclude : Option WS) (a : WS)
    (room : Room) (h : lookupRoom reg room_code = some room)
    (ha : a ∈ room.clients) (hfail : alive a = false) (hex : exclude ≠ some a) :
    (∃ room2,
        lookupRoom (broadcast_to_room alive reg room_code content exclude).reg
            room_code = some room2 ∧ a ∉ room2.clients) ∧
    (∀ msg, (a, msg) ∉ (broadcast_to_room alive reg room_code content exclude).sent) ∧
    (∀ alive2 content2 exclude2, a ∉
        (broadcast_to_room alive2
          (broadcast_to_room alive reg room_code content exclude).reg
          room_code content2 exclude2).attempted) := by
  have hbr := broadcast_to_room_found alive reg room_code content exclude room h
  have hexa : (fun w => decide (exclude ≠ some w)) a = true := by
    simp only [decide_eq_true_eq]
    exact hex
  have hadead : a ∈ (room.clients.filter (fun w => decide (exclude ≠ some w))).filter
      (fun w => !alive w) :=
    List.mem_filter.mpr ⟨List.mem_filter.mpr ⟨ha, hexa⟩, by simp [hfail]⟩
  have hnotin : a ∉ room.clients.filter (fun w => decide (w ∉
      (room.clients.filter (fun w => decide (exclude ≠ some w))).filter
        (fun w => !alive w))) := by
    intro hmem
    have hdec := (List.mem_filter.mp hmem).2
    rw [decide_eq_true_eq] at hdec
    exact hdec hadead
  refine ⟨?_, ?_, ?_⟩
  · refine ⟨{ room with clients := room.clients.filter (fun w => decide (w ∉
        (room.clients.filter (fun w => decide (exclude ≠ some w))).filter
          (fun w => !alive w))) }, ?_, hnotin⟩
    rw [hbr]
    exact lookupRoom_setRoom_same _ _ _
  · intro msg hmem
    rw [hbr] at hmem
    obtain ⟨w, hwmem, heq⟩ := List.mem_map.mp hmem
    have hwa : w = a := congrArg Prod.fst heq
    subst hwa
    have := (List.mem_filter.mp hwmem).2
    rw [hfail] at this
    exact Bool.noConfusion this
  · intro alive2 content2 exclude2 hmem
    rw [hbr] at hmem
    have h2 := lookupRoom_setRoom_same reg room_code
      { room with clients := room.clients.filter (fun w => decide (w ∉
          (room.clients.filter (fun w => decide (exclude ≠ some w))).filter
            (fun w => !alive w))) }
    rw [broadcast_to_room_found alive2 _ room_code content2 exclude2 _ h2] at hmem
    exact hnotin (List.mem_of_mem_filter hmem)

/-- C4 witness: after a broadcast to room "R" with clients {1, 3} in which
delivery to 3 failed, a second broadcast to "R" never attempts delivery
to 3. -/
theorem broadcast_prunes_dead_witness :
    3 ∉ (broadcast_to_room (fun _ => true)
        (broadcast_to_room (fun w => decide (w ≠ 3))
          [("R", ⟨[1, 3], Json.str "", 0⟩)] "R" (Json.str "x") none).reg
        "R" (Json.str "y") none).attempted :=
  (broadcast_prunes_dead (fun w => decide (w ≠ 3))
    [("R", ⟨[1, 3], Json.str "", 0⟩)] "R" (Json.str "x") none 3
    ⟨[1, 3], Json.str "", 0⟩ rfl (by decide) (by decide) (by decide)).2.2
    (fun _ => true) (Json.str "y") none

/-- C10: every inbound live-channel JSON object whose "type" is "clipboard"
but which has no "content" key (received in an existing room whose clients
are all live) sets the room's last content to the empty string and broadcasts
`{type: "sync", content: ""}` to every member other than the sender - the
room's replayable content is silently erased. -/
theorem ws_clipboard_missing_content (alive : WS → Bool) (reg : Registry)
    (room_code : String) (c : WS) (fields : List (String × Json)) (room : Room)
    (hisc : isClipboard fields = true)
    (hnoc : dictGet fields "content" = none)
    (h : lookupRoom reg room_code = some room)
    (hal : ∀ w ∈ room.clients, alive w = true) :
    lookupRoom (ws_handle_message alive reg room_code c (.obj fields)).1 room_code
      = some { room with last_content := Json.str "" } ∧
    (ws_handle_message alive reg room_code c (.obj fields)).2.1
      = (room.clients.filter (fun w => decide (w ≠ c))).map
          (fun w => (w, syncMsg (Json.str ""))) ∧
    (ws_handle_message alive reg room_code c (.obj fields)).2.2 = .ok () := by
  have h1 := lookupRoom_setRoom_same reg room_code
    { room with last_content := Json.str "" }
  have hal1 : ∀ w ∈ ({ room with last_content := Json.str "" } : Room).clients,
      alive w = true := hal
  have hbr := broadcast_all_alive_excluding alive
    (setRoom reg room_code { room with last_content := Json.str "" })
    room_code (Json.str "") c { room with last_content := Json.str "" } h1 hal1
  have hc : (dictGet fields "content").getD (Json.str "") = Json.str "" := by
    rw [hnoc]
    rfl
  simp only [ws_handle_message, hisc, if_true, hc, h]
  rw [hbr]
  simp [setRoom_setRoom, lookupRoom_setRoom_same]

/-- C10 witness: in room "R" with clients {1, 2}, client 1 sending the
content-less clipboard object `{"type": "clipboard", "device": "phone"}`
erases the stored content "keep" to "" and sends `{type: "sync",
content: ""}` to client 2. -/
theorem ws_clipboard_missing_content_witness :
    lookupRoom (ws_handle_message (fun _ => true)
        [("R", ⟨[1, 2], Json.str "keep", 5⟩)] "R" 1
        (.obj [("type", Json.str "clipboard"), ("device", Json.str "phone")])).1 "R"
      = some ⟨[1, 2], Json.str "", 5⟩ ∧
    (ws_handle_message (fun _ => true) [("R", ⟨[1, 2], Json.str "keep", 5⟩)] "R" 1
        (.obj [("type", Json.str "clipboard"), ("device", Json.str "phone")])).2.1
      = [(2, syncMsg (Json.str ""))] := by
  have hmain := ws_clipboard_missing_content (fun _ => true)
    [("R", ⟨[1, 2], Json.str "keep", 5⟩)] "R" 1
    [("type", Json.str "clipboard"), ("device", Json.str "phone")]
    ⟨[1, 2], Json.str "keep", 5⟩ rfl rfl rfl (fun _ _ => rfl)
  exact ⟨hmain.1.trans rfl, hmain.2.1.trans rfl⟩

end ClipboardBridge
